import Mathlib

/-!
Shallow embedding of `src/gg.js` (`RealLSPClient`): a WebSocket-based LSP
client with request/response correlation, timeouts, exponential-backoff
reconnection, capability-gated feature requests, diagnostics mapping,
hover normalization and a bounded UI log.

JavaScript numbers are modelled as `Nat` (all quantities involved are
non-negative integers), optional / possibly-`undefined` fields as `Option`,
and JS truthiness is made explicit where the code relies on it.
-/

namespace SentenceLSP

/-! ## Reconnection controller (`connect`, `onclose` handler, lines 36-48)

On every close event the handler checks `reconnectAttempts < maxReconnectAttempts`
(5), pre-increments the counter, computes
`delay = Math.min(1000 * Math.pow(2, this.reconnectAttempts), 30000)`
and schedules `connect` after `delay`; otherwise it schedules nothing. -/

structure ReconnState where
  reconnectAttempts : Nat
  maxReconnectAttempts : Nat
  deriving Repr, DecidableEq

/-- The `onclose` handler's reconnection logic: returns the new state and
`some delay` when a reconnect was scheduled, `none` when it was not. -/
def oncloseStep (s : ReconnState) : ReconnState × Option Nat :=
  if s.reconnectAttempts < s.maxReconnectAttempts then
    let a := s.reconnectAttempts + 1
    ({ s with reconnectAttempts := a }, some (min (1000 * 2 ^ a) 30000))
  else
    (s, none)

/-- The sequence of scheduled delays (`none` = nothing scheduled) produced by
`n` successive close events. -/
def runCloses (s : ReconnState) : Nat → List (Option Nat)
  | 0 => []
  | n + 1 =>
    let (s', d) := oncloseStep s
    d :: runCloses s' n

/-- Initial reconnection state from the constructor (lines 8-9). -/
def reconnInit : ReconnState := { reconnectAttempts := 0, maxReconnectAttempts := 5 }

/-! ## Diagnostics mapping (`handleDiagnostics`, lines 403-424) -/

structure Pos where
  line : Nat
  character : Nat
  deriving Repr, DecidableEq

structure LspRange where
  start : Pos
  «end» : Pos
  deriving Repr, DecidableEq

structure Diagnostic where
  range : LspRange
  message : String
  /-- `severity` may be absent on the wire (`undefined`). -/
  severity : Option Nat
  deriving Repr, DecidableEq

inductive MarkerSeverity where
  | Error | Warning | Info | Hint
  deriving Repr, DecidableEq

structure Marker where
  startLineNumber : Nat
  endLineNumber : Nat
  startColumn : Nat
  endColumn : Nat
  message : String
  severity : MarkerSeverity
  deriving Repr, DecidableEq

/-- The per-diagnostic marker mapping inside `handleDiagnostics`:
each coordinate is shifted by `+1` and the severity chain
`=== 1 ? Error : === 2 ? Warning : === 3 ? Info : Hint` is applied. -/
def diagToMarker (diag : Diagnostic) : Marker :=
  { startLineNumber := diag.range.start.line + 1
    endLineNumber := diag.range.«end».line + 1
    startColumn := diag.range.start.character + 1
    endColumn := diag.range.«end».character + 1
    message := diag.message
    severity :=
      if diag.severity = some 1 then .Error
      else if diag.severity = some 2 then .Warning
      else if diag.severity = some 3 then .Info
      else .Hint }

/-- `handleDiagnostics`: early-returns (produces no markers, modelled `none`)
when the editor is absent or error detection is disabled; otherwise maps every
diagnostic of the payload to a marker. -/
def handleDiagnostics (editorPresent errorDetectionEnabled : Bool)
    (diagnostics : List Diagnostic) : Option (List Marker) :=
  if editorPresent && errorDetectionEnabled then
    some (diagnostics.map diagToMarker)
  else
    none

/-! ## Hover normalization (`getHover`, lines 324-335) -/

/-- A hover-content fragment: on the wire either a plain string or an object
carrying a `value` field. -/
inductive HoverContent where
  | str (s : String)
  | obj (value : String)
  deriving Repr, DecidableEq

/-- `typeof content === 'string' ? content : (content.value || content)`,
subsequently stringified by `Array.prototype.join`: an object whose `value`
is falsy (empty string) joins as its default stringification. -/
def hoverContentText : HoverContent → String
  | .str s => s
  | .obj v => if v = "" then "[object Object]" else v

/-- The `result.contents` field: either a single fragment or an array of
fragments (`Array.isArray(result.contents) ? result.contents : [result.contents]`). -/
inductive ContentsVal where
  | single (c : HoverContent)
  | array (cs : List HoverContent)
  deriving Repr, DecidableEq

def contentsList : ContentsVal → List HoverContent
  | .single c => [c]
  | .array cs => cs

/-- JS truthiness of the `contents` field as tested by `!result.contents`:
absent/`null` is falsy, a single empty string is falsy, everything else
(including an empty array) is truthy. -/
def contentsTruthy : Option ContentsVal → Bool
  | none => false
  | some (.single (.str "")) => false
  | some _ => true

structure HoverResult where
  contents : Option ContentsVal
  range : Option LspRange
  deriving Repr, DecidableEq

structure HoverOut where
  range : Option LspRange
  /-- `contents: [{ value: markdown }]` — the single joined markdown block. -/
  contents : List String
  deriving Repr, DecidableEq

/-- The normalization performed by `getHover` on a received result:
`if (!result || !result.contents) return null`, then fragments are mapped to
text and joined with `'\n\n'`. -/
def normalizeHover : Option HoverResult → Option HoverOut
  | none => none
  | some r =>
    if contentsTruthy r.contents then
      match r.contents with
      | some cv =>
        some { range := r.range
               contents := [String.intercalate "\n\n" ((contentsList cv).map hoverContentText)] }
      | none => none
    else none

/-! ## Bounded UI log (`addLog`, lines 455-471) -/

/-- The trimming loop `while (logsContainer.children.length > 50) removeChild(firstChild)`. -/
def trimLog (l : List String) : List String :=
  if _h : l.length > 50 then trimLog l.tail else l
termination_by l.length
decreasing_by
  simp only [List.length_tail]
  omega

/-- `addLog` on the log container's children: appends the new entry, then
removes entries from the front while more than 50 remain. -/
def addLog (logs : List String) (entry : String) : List String :=
  trimLog (logs ++ [entry])

/-! ## Transport state and the correlation table (`sendMessage`, lines 63-88;
`handleMessage`, lines 90-120)

The pending-request table `this.pendingRequests : Map` is modelled by its key
set as a duplicate-free insertion-ordered list of identifiers; settlements of
the stored completions are recorded in an append-only journal so that
"settled exactly once" is expressible. -/

inductive WsReadyState where
  | CONNECTING | OPEN | CLOSING | CLOSED
  deriving Repr, DecidableEq

inductive SettleKind where
  /-- `request.resolve(message.result)` -/
  | resolved
  /-- `request.reject(new Error(message.error.message || 'LSP error'))` -/
  | rejectedError
  /-- `reject(new Error('Request timeout'))` from the 30s `setTimeout` -/
  | rejectedTimeout
  deriving Repr, DecidableEq

structure ClientNet where
  ws : Option WsReadyState
  /-- Key set of `this.pendingRequests`, in insertion order. -/
  pending : List Nat
  /-- Journal of completion settlements `(id, kind)`, in order. -/
  settled : List (Nat × SettleKind)
  deriving Repr, DecidableEq

/-- Number of times the completion of request `n` has been settled. -/
def settledCount (s : ClientNet) (n : Nat) : Nat :=
  (s.settled.map Prod.fst).count n

/-- `Map.set` at the key level: inserts the key if absent (a present key keeps
the key set unchanged). -/
def mapSet (l : List Nat) (n : Nat) : List Nat :=
  if n ∈ l then l else l ++ [n]

inductive SendOutcome where
  /-- `return Promise.reject(new Error('Connection not ready'))` — the spec's `TransportNotReady`. -/
  | rejectedNotReady
  /-- identifier-bearing message sent; a pending entry was registered and a
  30s timeout scheduled for it. -/
  | requestRegistered (id : Nat)
  /-- notification sent; `return Promise.resolve()`. -/
  | resolvedImmediately
  deriving Repr, DecidableEq

/-- `sendMessage` (lines 63-88): guard
`if (!this.ws || this.ws.readyState !== WebSocket.OPEN)` rejects without
touching the table; otherwise the frame is sent and, when `message.id`
is defined, a pending entry is registered (with a timeout scheduled). -/
def sendMessage (s : ClientNet) (id : Option Nat) : ClientNet × SendOutcome :=
  match s.ws with
  | some .OPEN =>
    match id with
    | some n => ({ s with pending := mapSet s.pending n }, .requestRegistered n)
    | none => (s, .resolvedImmediately)
  | _ => (s, .rejectedNotReady)

/-- A decoded inbound frame: `id`, `error`, `result`, `method` are each
possibly absent. The `error` object is represented by its message. -/
structure WireMessage where
  id : Option Nat
  error : Option String
  result : Option String
  method : Option String
  /-- The `params.message` payload read by the `window/logMessage` and
  `window/showMessage` handlers (absent = `undefined`). -/
  params : Option String := none
  deriving Repr, DecidableEq

/-- What `handleMessage` did with a frame. -/
inductive Dispatch where
  /-- the response branch ran: the entry was removed and its completion invoked. -/
  | settledRequest (id : Nat) (kind : SettleKind)
  /-- the notification branch ran for `method`. -/
  | notification (method : String)
  /-- neither branch matched: the frame was discarded. -/
  | ignored
  deriving Repr, DecidableEq

/-- JS truthiness of `message.id` for a numeric-or-absent id. -/
def idTruthy : Option Nat → Bool
  | none => false
  | some n => n != 0

/-- `handleMessage` (lines 90-120): if `message.id` is truthy AND present in
the table, the entry is deleted and then rejected (on `message.error`) or
resolved; otherwise, if `message.method` is present, the notification switch
runs; otherwise nothing happens. -/
def handleMessage (s : ClientNet) (m : WireMessage) : ClientNet × Dispatch :=
  match m.id with
  | some n =>
    if n ≠ 0 ∧ n ∈ s.pending then
      let kind : SettleKind := if m.error.isSome then .rejectedError else .resolved
      ({ s with pending := s.pending.erase n, settled := s.settled ++ [(n, kind)] },
       .settledRequest n kind)
    else
      match m.method with
      | some meth => (s, .notification meth)
      | none => (s, .ignored)
  | none =>
    match m.method with
    | some meth => (s, .notification meth)
    | none => (s, .ignored)

/-- The log lines the notification switch of `handleMessage` emits through
its own `addLog` call sites (lines 111 and 117): the `window/logMessage`
handler logs the payload message, the default branch logs the unhandled
method; `textDocument/publishDiagnostics` delegates to `handleDiagnostics`
and `window/showMessage` raises a toast, neither logging here; a frame with
no `method` reaches no `addLog` call at all. -/
def notificationOwnLogs (m : WireMessage) : List String :=
  match m.method with
  | some meth =>
    if meth = "textDocument/publishDiagnostics" then []
    else if meth = "window/logMessage" then [m.params.getD "undefined"]
    else if meth = "window/showMessage" then []
    else ["Unhandled notification: " ++ meth]
  | none => []

/-- The log lines emitted through `addLog` during a `handleMessage` call:
the response-settlement branch (lines 92-102) contains no `addLog` call, so
only frames that fall through to the notification switch can log. -/
def handleMessageOwnLogs (s : ClientNet) (m : WireMessage) : List String :=
  match m.id with
  | some n =>
    if n ≠ 0 ∧ n ∈ s.pending then []
    else notificationOwnLogs m
  | none => notificationOwnLogs m

/-- The 30-second timeout callback scheduled at registration time
(lines 78-83): `if (this.pendingRequests.has(id)) { delete; reject(timeout) }`. -/
def timeoutFire (s : ClientNet) (n : Nat) : ClientNet :=
  if n ∈ s.pending then
    { s with pending := s.pending.erase n, settled := s.settled ++ [(n, .rejectedTimeout)] }
  else s

/-- Events that can touch a registered pending entry after `sendMessage`
returns: an inbound frame, or a scheduled timeout callback firing. -/
inductive NetEv where
  | recv (m : WireMessage)
  | timeout (n : Nat)
  deriving Repr, DecidableEq

def stepNet (s : ClientNet) : NetEv → ClientNet
  | .recv m => (handleMessage s m).1
  | .timeout n => timeoutFire s n

def runNet (s : ClientNet) (tr : List NetEv) : ClientNet :=
  tr.foldl stepNet s

/-! ## Identifier generation across the session (`constructor` lines 2-10,
`onopen` lines 19-25, `++this.messageId` in `initialize` line 135,
`getCompletions` line 250, `getHover` line 316) -/

structure SessionCounters where
  messageId : Nat
  reconnectAttempts : Nat
  isConnected : Bool
  deriving Repr, DecidableEq

/-- Constructor state (lines 2-10): `messageId = 0`, `reconnectAttempts = 0`. -/
def countersInit : SessionCounters :=
  { messageId := 0, reconnectAttempts := 0, isConnected := false }

/-- Events that touch the counters: the three id-allocating request methods
(each performs `++this.messageId` and uses the new value as the request id),
and the websocket open/close handlers. -/
inductive ApiEv where
  | initializeReq | getCompletions | getHover | wsOpen | wsClose
  deriving Repr, DecidableEq

/-- One step; returns the id allocated by the event, if any. The `onopen`
handler (lines 19-25) sets `isConnected` and resets `reconnectAttempts` only;
the `onclose` handler never touches `messageId` either. -/
def stepApi (s : SessionCounters) : ApiEv → SessionCounters × Option Nat
  | .initializeReq => ({ s with messageId := s.messageId + 1 }, some (s.messageId + 1))
  | .getCompletions => ({ s with messageId := s.messageId + 1 }, some (s.messageId + 1))
  | .getHover => ({ s with messageId := s.messageId + 1 }, some (s.messageId + 1))
  | .wsOpen => ({ s with isConnected := true, reconnectAttempts := 0 }, none)
  | .wsClose =>
    ({ s with isConnected := false,
              reconnectAttempts :=
                if s.reconnectAttempts < 5 then s.reconnectAttempts + 1
                else s.reconnectAttempts }, none)

/-- Run a sequence of events, collecting the allocated ids in order. -/
def runApi (s : SessionCounters) : List ApiEv → SessionCounters × List Nat
  | [] => (s, [])
  | e :: tr =>
    let (s', oid) := stepApi s e
    let (sf, ids) := runApi s' tr
    (sf, oid.toList ++ ids)

/-- Whether an event allocates a request id. -/
def allocates : ApiEv → Bool
  | .initializeReq => true
  | .getCompletions => true
  | .getHover => true
  | .wsOpen => false
  | .wsClose => false

/-! ## Capability gating (`getCompletions` lines 242-245, `getHover`
lines 308-311) -/

/-- Truthiness of the provider fields tested by
`this.serverCapabilities?.completionProvider` / `?.hoverProvider`. -/
structure ServerCaps where
  completionProvider : Bool
  hoverProvider : Bool
  deriving Repr, DecidableEq

structure SessionState where
  isConnected : Bool
  /-- `null` until the `initialize` response is stored (line 193). -/
  serverCapabilities : Option ServerCaps
  deriving Repr, DecidableEq

/-- Result of a feature method's capability gate. -/
inductive GateResult (α : Type) where
  /-- short-circuit: the method returns `a` having sent no wire frame. -/
  | earlyReturn (a : α)
  /-- the gate passed: the method proceeds to allocate an id and send. -/
  | proceed
  deriving Repr, DecidableEq

structure CompletionsEmpty where
  suggestions : List String
  deriving Repr, DecidableEq

/-- The gate of `getCompletions`:
`if (!this.isConnected || !this.serverCapabilities?.completionProvider) return { suggestions: [] }`. -/
def getCompletionsGate (s : SessionState) : GateResult CompletionsEmpty :=
  if s.isConnected && (match s.serverCapabilities with
                       | some c => c.completionProvider
                       | none => false) then
    .proceed
  else
    .earlyReturn { suggestions := [] }

/-- The gate of `getHover`:
`if (!this.isConnected || !this.serverCapabilities?.hoverProvider) return null`. -/
def getHoverGate (s : SessionState) : GateResult (Option HoverOut) :=
  if s.isConnected && (match s.serverCapabilities with
                       | some c => c.hoverProvider
                       | none => false) then
    .proceed
  else
    .earlyReturn none

/-- Pending-multiplicity plus settlement-count for one identifier: the
conserved quantity of the correlation table. -/
def entryMeasure (s : ClientNet) (n : Nat) : Nat :=
  s.pending.count n + settledCount s n

/-- State reached after `n` successive close events. -/
def closesState (s : ReconnState) : Nat → ReconnState
  | 0 => s
  | n + 1 => closesState (oncloseStep s).1 n

/-! ## Theorems -/

lemma runCloses_add (s : ReconnState) (n k : Nat) :
    runCloses s (n + k) = runCloses s n ++ runCloses (closesState s n) k := by
  induction n generalizing s with
  | zero => simp [runCloses, closesState]
  | succ n ih =>
    show runCloses s (n + 1 + k) = _
    rw [Nat.add_right_comm]
    simp only [runCloses, closesState]
    rw [ih]
    simp [closesState]

lemma runCloses_saturated (s : ReconnState)
    (h : ¬ s.reconnectAttempts < s.maxReconnectAttempts) (k : Nat) :
    runCloses s k = List.replicate k none := by
  induction k with
  | zero => simp [runCloses]
  | succ k ih =>
    simp only [runCloses, oncloseStep, if_neg h]
    simp [ih, List.replicate_succ]

/-- C2: the delays computed on successive close events, from the constructor
state (0 attempts, ceiling 5), are exactly 2000, 4000, 8000, 16000, 30000 ms
(pre-incremented counter, `min(1000 * 2^attempts, 30000)`), and every close
event after the 5th schedules no further reconnection attempt. -/
theorem reconnect_backoff_sequence :
    runCloses reconnInit 5 =
      [some 2000, some 4000, some 8000, some 16000, some 30000] ∧
    ∀ k : Nat, runCloses reconnInit (5 + k) =
      [some 2000, some 4000, some 8000, some 16000, some 30000] ++
        List.replicate k none := by
  constructor
  · decide
  · intro k
    rw [runCloses_add]
    have hst : closesState reconnInit 5 =
        { reconnectAttempts := 5, maxReconnectAttempts := 5 } := by decide
    have h5 : runCloses reconnInit 5 =
        [some 2000, some 4000, some 8000, some 16000, some 30000] := by decide
    rw [hst, h5, runCloses_saturated _ (by decide) k]

/-- C3: while `serverCapabilities` is still `null` (i.e. before the
`initialize` handshake has completed), `getCompletions` short-circuits to
`{ suggestions: [] }` and `getHover` short-circuits to `null`, in both cases
without sending a wire frame (the `proceed` path is the only one that sends). -/
theorem feature_requests_before_ready (s : SessionState)
    (h : s.serverCapabilities = none) :
    getCompletionsGate s = GateResult.earlyReturn { suggestions := [] } ∧
    getHoverGate s = GateResult.earlyReturn none := by
  simp [getCompletionsGate, getHoverGate, h]

theorem feature_requests_before_ready_witness :
    getCompletionsGate { isConnected := true, serverCapabilities := none } =
      GateResult.earlyReturn { suggestions := [] } ∧
    getHoverGate { isConnected := true, serverCapabilities := none } =
      GateResult.earlyReturn none :=
  feature_requests_before_ready
    { isConnected := true, serverCapabilities := none } rfl

/-- C4: `sendMessage` called while the transport is not `OPEN` (no socket, or
any other ready state) returns the `TransportNotReady` rejection and leaves
the whole client state — in particular the pending-request table — unchanged. -/
theorem send_not_open_rejects (s : ClientNet) (id : Option Nat)
    (h : s.ws ≠ some WsReadyState.OPEN) :
    (sendMessage s id).2 = SendOutcome.rejectedNotReady ∧
    (sendMessage s id).1 = s ∧
    (sendMessage s id).1.pending = s.pending := by
  match hws : s.ws with
  | none => simp [sendMessage, hws]
  | some .CONNECTING => simp [sendMessage, hws]
  | some .OPEN => exact absurd hws h
  | some .CLOSING => simp [sendMessage, hws]
  | some .CLOSED => simp [sendMessage, hws]

theorem send_not_open_rejects_witness :
    (sendMessage { ws := none, pending := [], settled := [] } (some 1)).2 =
      SendOutcome.rejectedNotReady ∧
    (sendMessage { ws := none, pending := [], settled := [] } (some 1)).1 =
      { ws := none, pending := [], settled := [] } ∧
    (sendMessage { ws := none, pending := [], settled := [] } (some 1)).1.pending = [] :=
  send_not_open_rejects { ws := none, pending := [], settled := [] } (some 1)
    (by decide)

/-- C7: `handleDiagnostics` shifts every range coordinate by `+1`
(zero-based to one-based), maps severities 1/2/3 to Error/Warning/Info and
everything else — including 4 and absent — to Hint, reproduces the concrete
example of the spec, and emits one marker per incoming diagnostic. -/
theorem diagnostics_mapping :
    (∀ d : Diagnostic,
      (diagToMarker d).startLineNumber = d.range.start.line + 1 ∧
      (diagToMarker d).endLineNumber = d.range.«end».line + 1 ∧
      (diagToMarker d).startColumn = d.range.start.character + 1 ∧
      (diagToMarker d).endColumn = d.range.«end».character + 1 ∧
      (diagToMarker d).message = d.message) ∧
    (∀ d : Diagnostic,
      (d.severity = some 1 → (diagToMarker d).severity = MarkerSeverity.Error) ∧
      (d.severity = some 2 → (diagToMarker d).severity = MarkerSeverity.Warning) ∧
      (d.severity = some 3 → (diagToMarker d).severity = MarkerSeverity.Info) ∧
      (d.severity = some 4 → (diagToMarker d).severity = MarkerSeverity.Hint) ∧
      (d.severity ≠ some 1 → d.severity ≠ some 2 → d.severity ≠ some 3 →
        (diagToMarker d).severity = MarkerSeverity.Hint)) ∧
    diagToMarker { range := { start := { line := 2, character := 4 },
                              «end» := { line := 2, character := 9 } },
                   message := "m", severity := some 1 } =
      { startLineNumber := 3, endLineNumber := 3, startColumn := 5,
        endColumn := 10, message := "m", severity := MarkerSeverity.Error } ∧
    (∀ ds : List Diagnostic,
      handleDiagnostics true true ds = some (ds.map diagToMarker)) := by
  refine ⟨fun d => ⟨rfl, rfl, rfl, rfl, rfl⟩, fun d => ⟨?_, ?_, ?_, ?_, ?_⟩, ?_, fun ds => rfl⟩
  · intro h; simp [diagToMarker, h]
  · intro h; simp [diagToMarker, h]
  · intro h; simp [diagToMarker, h]
  · intro h; simp [diagToMarker, h]
  · intro h1 h2 h3
    simp only [diagToMarker]
    rw [if_neg h1, if_neg h2, if_neg h3]
  · decide

theorem diagnostics_mapping_witness :
    (diagToMarker { range := { start := { line := 0, character := 0 },
                               «end» := { line := 0, character := 0 } },
                    message := "w", severity := some 7 }).severity =
      MarkerSeverity.Hint :=
  (diagnostics_mapping.2.1 _).2.2.2.2 (by decide) (by decide) (by decide)

/-- C6 counterexample: for the concrete response frame
`{id: 99, result: "r"}` (no `method`) against an empty pending table,
`handleMessage` discards the frame — but it reaches no `addLog` call site,
so nothing is logged, contradicting the claim's "logged rather than fatal". -/
theorem unknown_id_response_not_logged :
    handleMessage { ws := some WsReadyState.OPEN, pending := [], settled := [] }
        { id := some 99, error := none, result := some "r", method := none } =
      ({ ws := some WsReadyState.OPEN, pending := [], settled := [] },
       Dispatch.ignored) ∧
    handleMessageOwnLogs { ws := some WsReadyState.OPEN, pending := [], settled := [] }
        { id := some 99, error := none, result := some "r", method := none } = [] := by
  constructor <;> rfl

/-- C6 (amended): an inbound response frame (no `method` field) whose
identifier is not in the pending-request table is discarded: the state is
unchanged, no completion is invoked (the dispatch is `ignored`, not a
settlement), and the discard is silent — no log line is emitted. -/
theorem unknown_id_response_noop (s : ClientNet) (m : WireMessage) (n : Nat)
    (hid : m.id = some n) (hmeth : m.method = none) (habs : n ∉ s.pending) :
    handleMessage s m = (s, Dispatch.ignored) ∧
    handleMessageOwnLogs s m = [] := by
  have hcond : ¬ (n ≠ 0 ∧ n ∈ s.pending) := by
    rintro ⟨-, hmem⟩
    exact habs hmem
  constructor
  · simp only [handleMessage, hid, hmeth]
    rw [if_neg hcond]
  · simp only [handleMessageOwnLogs, hid, notificationOwnLogs, hmeth]
    rw [if_neg hcond]

theorem unknown_id_response_noop_witness :
    (handleMessage { ws := some WsReadyState.OPEN, pending := [], settled := [] }
        { id := some 5, error := none, result := some "r", method := none } =
      ({ ws := some WsReadyState.OPEN, pending := [], settled := [] },
       Dispatch.ignored) ∧
    handleMessageOwnLogs { ws := some WsReadyState.OPEN, pending := [], settled := [] }
        { id := some 5, error := none, result := some "r", method := none } = []) :=
  unknown_id_response_noop _ _ 5 rfl rfl (by decide)

/-- C8: `getHover` normalizes a contents array by mapping each fragment
(plain string, or object with a `value` field) to its text and joining with a
blank line, the spec's concrete example `["a", {value:"b"}]` yields
`"a\n\nb"`, and a missing result or a result without contents yields `null`. -/
theorem hover_normalization :
    (∀ (cs : List HoverContent) (range : Option LspRange),
      normalizeHover (some { contents := some (ContentsVal.array cs), range := range }) =
        some { range := range
               contents := [String.intercalate "\n\n" (cs.map hoverContentText)] }) ∧
    normalizeHover
      (some { contents := some (ContentsVal.array [HoverContent.str "a", HoverContent.obj "b"]), range := none }) =
      some { range := none, contents := ["a\n\nb"] } ∧
    (∀ r : HoverResult, r.contents = none → normalizeHover (some r) = none) ∧
    normalizeHover none = none := by
  refine ⟨fun cs range => rfl, by decide, fun r h => ?_, rfl⟩
  simp [normalizeHover, h, contentsTruthy]

theorem hover_normalization_witness :
    normalizeHover (some { contents := none, range := none }) = none :=
  hover_normalization.2.2.1 { contents := none, range := none } rfl

lemma trimLog_eq_drop (l : List String) :
    trimLog l = List.drop (l.length - 50) l := by
  induction l using trimLog.induct with
  | case1 l h ih =>
    rw [trimLog, dif_pos h]
    cases l with
    | nil => simp at h
    | cons a l' =>
      simp only [List.tail_cons] at ih ⊢
      rw [ih]
      simp only [List.length_cons]
      have : l'.length + 1 - 50 = (l'.length - 50) + 1 := by
        simp only [List.length_cons] at h
        omega
      rw [this, List.drop_succ_cons]
  | case2 l h =>
    rw [trimLog, dif_neg h]
    have : l.length - 50 = 0 := by omega
    rw [this, List.drop_zero]

/-- C10: after every `addLog` call the log holds at most 50 entries, and
trimming removes the oldest entries first: the kept log is precisely a suffix
of the appended log, obtained by dropping the excess from the front. -/
theorem addLog_bounded :
    (∀ (logs : List String) (e : String), (addLog logs e).length ≤ 50) ∧
    (∀ (logs : List String) (e : String),
      addLog logs e =
        List.drop ((logs ++ [e]).length - 50) (logs ++ [e])) ∧
    (∀ (logs : List String) (e : String), (addLog logs e).IsSuffix (logs ++ [e])) := by
  refine ⟨fun logs e => ?_, fun logs e => trimLog_eq_drop _, fun logs e => ?_⟩
  · rw [addLog, trimLog_eq_drop, List.length_drop]
    omega
  · rw [addLog, trimLog_eq_drop]
    exact List.drop_suffix _ _

lemma runApi_spec (s : SessionCounters) (tr : List ApiEv) :
    (runApi s tr).2 =
      List.range' (s.messageId + 1) (tr.countP (fun e => allocates e)) ∧
    (runApi s tr).1.messageId = s.messageId + tr.countP (fun e => allocates e) := by
  induction tr generalizing s with
  | nil => simp [runApi]
  | cons e tr ih =>
    cases e <;>
      simp [runApi, stepApi, allocates, List.countP_cons, (ih _).1, (ih _).2,
        List.range'_succ, Nat.add_right_comm, Nat.add_assoc] <;>
      omega

/-- C5: over any interleaving of the id-allocating methods (`initialize`,
`getCompletions`, `getHover`) with websocket open/close events, the allocated
request identifiers form a strictly increasing, duplicate-free sequence; the
`onopen` handler resets the reconnection attempt counter but leaves the
message-id counter untouched. -/
theorem ids_strictly_increasing :
    (∀ tr : List ApiEv, ((runApi countersInit tr).2).Pairwise (· < ·)) ∧
    (∀ tr : List ApiEv, ((runApi countersInit tr).2).Nodup) ∧
    (∀ s : SessionCounters,
      (stepApi s ApiEv.wsOpen).1.messageId = s.messageId ∧
      (stepApi s ApiEv.wsOpen).1.reconnectAttempts = 0) := by
  have hpw : ∀ tr : List ApiEv, ((runApi countersInit tr).2).Pairwise (· < ·) := by
    intro tr
    rw [(runApi_spec countersInit tr).1]
    exact List.pairwise_lt_range' _ _
  exact ⟨hpw, fun tr => (hpw tr).imp Nat.ne_of_lt, fun s => ⟨rfl, rfl⟩⟩

/-- C9: every identifier the client allocates is at least 1 and hence truthy,
so `handleMessage`'s `message.id && pendingRequests.has(message.id)` test
routes a genuine response to a pending client request into the settlement
branch; only frames whose id is absent or 0 bypass the pending-request
lookup, and such frames leave the table untouched. -/
theorem ids_truthy_routing :
    (∀ tr : List ApiEv, ∀ i ∈ (runApi countersInit tr).2,
      1 ≤ i ∧ idTruthy (some i) = true) ∧
    (∀ (s : ClientNet) (m : WireMessage) (n : Nat),
      m.id = some n → 1 ≤ n → n ∈ s.pending →
      ∃ k : SettleKind,
        handleMessage s m =
          ({ s with pending := s.pending.erase n, settled := s.settled ++ [(n, k)] },
           Dispatch.settledRequest n k)) ∧
    (∀ (s : ClientNet) (m : WireMessage),
      (m.id = none ∨ m.id = some 0) → (handleMessage s m).1 = s) := by
  refine ⟨fun tr i hi => ?_, fun s m n hid hn hmem => ?_, fun s m h => ?_⟩
  · rw [(runApi_spec countersInit tr).1] at hi
    have := List.mem_range'_1.1 hi
    simp only [countersInit] at this
    refine ⟨by omega, ?_⟩
    simp only [idTruthy, bne_iff_ne, ne_eq]
    omega
  · refine ⟨if m.error.isSome then .rejectedError else .resolved, ?_⟩
    simp only [handleMessage, hid]
    rw [if_pos ⟨by omega, hmem⟩]
  · rcases h with h | h
    · simp only [handleMessage, h]
      cases hm : m.method <;> rfl
    · simp only [handleMessage, h]
      rw [if_neg (by simp)]
      cases hm : m.method <;> rfl

theorem ids_truthy_routing_witness :
    ∃ k : SettleKind,
      handleMessage { ws := some WsReadyState.OPEN, pending := [3], settled := [] }
          { id := some 3, error := none, result := some "r", method := none } =
        ({ ws := some WsReadyState.OPEN, pending := ([3] : List Nat).erase 3,
           settled := ([] : List (Nat × SettleKind)) ++ [(3, k)] },
         Dispatch.settledRequest 3 k) :=
  ids_truthy_routing.2.1 _ _ 3 rfl (by decide) (by decide)

lemma settled_append_count (settled : List (Nat × SettleKind)) (k n : Nat)
    (kd : SettleKind) :
    ((settled ++ [(k, kd)]).map Prod.fst).count n =
      (settled.map Prod.fst).count n + if k = n then 1 else 0 := by
  simp only [List.map_append, List.count_append, List.map_cons, List.map_nil]
  by_cases h : k = n <;> simp [h, List.count_cons]

lemma entryMeasure_settle (s : ClientNet) (k n : Nat) (kd : SettleKind)
    (hk : k ∈ s.pending) :
    entryMeasure
      { s with pending := s.pending.erase k, settled := s.settled ++ [(k, kd)] } n =
    entryMeasure s n := by
  simp only [entryMeasure, settledCount]
  rw [settled_append_count]
  by_cases h : k = n
  · subst h
    rw [List.count_erase_self]
    have : 0 < s.pending.count k := List.count_pos_iff.2 hk
    simp only [reduceIte]
    omega
  · rw [List.count_erase_of_ne (fun hn => h hn.symm)]
    simp [h]

lemma stepNet_entryMeasure (s : ClientNet) (e : NetEv) (n : Nat) :
    entryMeasure (stepNet s e) n = entryMeasure s n := by
  cases e with
  | recv m =>
    cases hid : m.id with
    | none =>
      simp only [stepNet, handleMessage, hid]
      cases hm : m.method <;> rfl
    | some k =>
      by_cases hc : k ≠ 0 ∧ k ∈ s.pending
      · simp only [stepNet, handleMessage, hid]
        rw [if_pos hc]
        exact entryMeasure_settle s k n _ hc.2
      · simp only [stepNet, handleMessage, hid]
        rw [if_neg hc]
        cases hm : m.method <;> rfl
  | timeout k =>
    simp only [stepNet, timeoutFire]
    by_cases hc : k ∈ s.pending
    · rw [if_pos hc]
      exact entryMeasure_settle s k n _ hc
    · rw [if_neg hc]

lemma runNet_entryMeasure (s : ClientNet) (tr : List NetEv) (n : Nat) :
    entryMeasure (runNet s tr) n = entryMeasure s n := by
  induction tr generalizing s with
  | nil => rfl
  | cons e tr ih =>
    simp only [runNet, List.foldl_cons] at ih ⊢
    rw [ih, stepNet_entryMeasure]

lemma stepNet_not_mem (s : ClientNet) (e : NetEv) (n : Nat)
    (h : n ∉ s.pending) : n ∉ (stepNet s e).pending := by
  cases e with
  | recv m =>
    cases hid : m.id with
    | none =>
      simp only [stepNet, handleMessage, hid]
      cases hm : m.method <;> exact h
    | some k =>
      by_cases hc : k ≠ 0 ∧ k ∈ s.pending
      · simp only [stepNet, handleMessage, hid]
        rw [if_pos hc]
        exact fun hmem => h (List.mem_of_mem_erase hmem)
      · simp only [stepNet, handleMessage, hid]
        rw [if_neg hc]
        cases hm : m.method <;> exact h
  | timeout k =>
    simp only [stepNet, timeoutFire]
    by_cases hc : k ∈ s.pending
    · rw [if_pos hc]
      exact fun hmem => h (List.mem_of_mem_erase hmem)
    · rw [if_neg hc]
      exact h

lemma runNet_not_mem (s : ClientNet) (tr : List NetEv) (n : Nat)
    (h : n ∉ s.pending) : n ∉ (runNet s tr).pending := by
  induction tr generalizing s with
  | nil => exact h
  | cons e tr ih =>
    simp only [runNet, List.foldl_cons] at ih ⊢
    exact ih _ (stepNet_not_mem s e n h)

lemma timeoutFire_not_mem (s : ClientNet) (n : Nat)
    (hc : s.pending.count n ≤ 1) : n ∉ (timeoutFire s n).pending := by
  simp only [timeoutFire]
  by_cases hm : n ∈ s.pending
  · rw [if_pos hm]
    have hpos : 0 < s.pending.count n := List.count_pos_iff.2 hm
    have : (s.pending.erase n).count n = 0 := by
      rw [List.count_erase_self]
      omega
    exact List.count_eq_zero.1 this
  · rw [if_neg hm]
    exact hm

/-- C1: once a request with identifier `n` has been registered (pending
multiplicity 1, no settlement yet), any sequence of inbound frames and
timeout firings settles its completion at most once ("never both"); and any
sequence in which the scheduled 30-second timeout for `n` fires — which the
code guarantees, since the timeout is scheduled at registration time —
settles it exactly once and removes `n` from the pending table ("never
neither"). Moreover `sendMessage` while `OPEN` with a fresh identifier
establishes exactly that registered state. -/
theorem pending_settled_exactly_once (s0 : ClientNet) (n : Nat)
    (hreg : s0.pending.count n = 1) (hset : settledCount s0 n = 0) :
    (∀ tr : List NetEv, settledCount (runNet s0 tr) n ≤ 1) ∧
    (∀ tr : List NetEv, NetEv.timeout n ∈ tr →
      settledCount (runNet s0 tr) n = 1 ∧ n ∉ (runNet s0 tr).pending) ∧
    (∀ s : ClientNet, s.ws = some WsReadyState.OPEN → n ∉ s.pending →
      (sendMessage s (some n)).2 = SendOutcome.requestRegistered n ∧
      (sendMessage s (some n)).1.pending.count n = 1 ∧
      settledCount (sendMessage s (some n)).1 n = settledCount s n) := by
  have hm0 : entryMeasure s0 n = 1 := by
    simp [entryMeasure, hreg, hset]
  refine ⟨fun tr => ?_, fun tr hto => ?_, fun s hws hfresh => ?_⟩
  · have := runNet_entryMeasure s0 tr n
    rw [hm0] at this
    simp only [entryMeasure] at this
    omega
  · obtain ⟨t1, t2, htr⟩ := List.append_of_mem hto
    subst htr
    have hsplit : runNet s0 (t1 ++ NetEv.timeout n :: t2) =
        runNet (timeoutFire (runNet s0 t1) n) t2 := by
      simp [runNet, List.foldl_append, List.foldl_cons, stepNet]
    have hm1 : entryMeasure (runNet s0 t1) n = 1 := by
      rw [runNet_entryMeasure, hm0]
    have hcount1 : (runNet s0 t1).pending.count n ≤ 1 := by
      simp only [entryMeasure] at hm1
      omega
    have hout : n ∉ (timeoutFire (runNet s0 t1) n).pending :=
      timeoutFire_not_mem _ n hcount1
    have hfin : n ∉ (runNet s0 (t1 ++ NetEv.timeout n :: t2)).pending := by
      rw [hsplit]
      exact runNet_not_mem _ t2 n hout
    have hmfin : entryMeasure (runNet s0 (t1 ++ NetEv.timeout n :: t2)) n = 1 := by
      rw [runNet_entryMeasure, hm0]
    have hzero : (runNet s0 (t1 ++ NetEv.timeout n :: t2)).pending.count n = 0 :=
      List.count_eq_zero.2 hfin
    simp only [entryMeasure, hzero] at hmfin
    exact ⟨by omega, hfin⟩
  · have hnot : (mapSet s.pending n) = s.pending ++ [n] := by
      simp [mapSet, hfresh]
    refine ⟨by simp [sendMessage, hws], ?_, ?_⟩
    · simp only [sendMessage, hws, hnot, List.count_append]
      have : s.pending.count n = 0 := List.count_eq_zero.2 hfresh
      simp [this, List.count_cons]
    · simp [sendMessage, hws, settledCount]

theorem pending_settled_exactly_once_witness :
    settledCount
        (runNet { ws := some WsReadyState.OPEN, pending := [7], settled := [] }
          [NetEv.timeout 7]) 7 = 1 ∧
    7 ∉ (runNet { ws := some WsReadyState.OPEN, pending := [7], settled := [] }
          [NetEv.timeout 7]).pending :=
  (pending_settled_exactly_once
      { ws := some WsReadyState.OPEN, pending := [7], settled := [] } 7
      (by decide) (by decide)).2.1 [NetEv.timeout 7] (by decide)

end SentenceLSP
